import Mathlib

/-!
# Verification of the devOps-csv-upload service

Shallow embedding of the repository's two programs:

* `src/backend/server.js` — an Express file-store service (upload, list,
  metadata, download, health endpoints), and
* `src/unnamed/part_000` — the browser client (file selection, XHR upload,
  list/download/delete UI).

JavaScript strings are modelled as `List Char`; the filesystem as a partial
map from paths to byte lists; `Date.now()` and `new Date()` as explicit
natural-number parameters.  Node's `path.posix.join`/`normalize` are embedded
segment-by-segment following `normalizeString` in Node's `lib/path.js`.
-/

set_option autoImplicit false

namespace CsvUpload

/-- JavaScript strings, modelled as lists of characters. -/
abbrev JStr := List Char

/-- JS `String.prototype.endsWith(suf)`. -/
def endsWithJs (s suf : JStr) : Bool := suf.isSuffixOf s

/-- JS `String.prototype.startsWith(p)` (at position 0). -/
def startsWithJs (s p : JStr) : Bool := p.isPrefixOf s

/-! ## Node `path.posix` embedding

`path.posix.join(a, b)` concatenates the non-empty arguments with `/` and
normalizes the result; `normalize` resolves `.` and `..` segments
(`normalizeString` with `allowAboveRoot = !isAbsolute`), restores a leading
`/` for absolute inputs and a trailing `/` when the input ended with one,
and returns `.` (or `./`) when everything cancels out. -/

/-- Split a character list at every `'/'` (like splitting the path into
segments; empty segments are produced for leading/duplicate slashes and
skipped later, exactly as in Node's `normalizeString`). -/
def splitOnSlash : JStr → List JStr
  | [] => [[]]
  | c :: cs =>
    if c = '/' then [] :: splitOnSlash cs
    else
      match splitOnSlash cs with
      | [] => [[c]]
      | s :: ss => (c :: s) :: ss

/-- Effect of a `..` segment on the stack of emitted segments (`acc`,
most recent first): it pops the previous segment, except that at the top
(or above a surviving `..`) it is kept when `allowAbove` is set (the
relative-path case) and dropped otherwise (the absolute-path case) —
exactly the `dots === 2` branch of Node's `normalizeString`. -/
def dropDotDot (allowAbove : Bool) (acc : List JStr) : List JStr :=
  match acc with
  | [] => if allowAbove then [['.', '.']] else []
  | a :: as =>
    if a = ['.', '.'] then
      (if allowAbove then ['.', '.'] :: a :: as else a :: as)
    else as

/-- The segment-resolution loop of Node's `normalizeString`: empty and `.`
segments are dropped, `..` is handled by `dropDotDot`, anything else is
emitted.  The final result is the stack in path order. -/
def normSegs (allowAbove : Bool) : List JStr → List JStr → List JStr
  | acc, [] => acc.reverse
  | acc, seg :: rest =>
    if seg = [] ∨ seg = ['.'] then
      normSegs allowAbove acc rest
    else if seg = ['.', '.'] then
      normSegs allowAbove (dropDotDot allowAbove acc) rest
    else
      normSegs allowAbove (seg :: acc) rest

/-- Rebuild the path body from resolved segments, `'/'`-separated (the
incremental `res += separator + seg` of `normalizeString`). -/
def joinSegs : List JStr → JStr
  | [] => []
  | s :: ss =>
    match ss with
    | [] => s
    | _ :: _ => s ++ '/' :: joinSegs ss

/-- Node `path.posix.normalize`. -/
def posixNormalize (p : JStr) : JStr :=
  if p = [] then ['.']
  else
    let isAbs : Bool := p.head? == some '/'
    let trail : Bool := p.getLast? == some '/'
    let segs := normSegs (!isAbs) [] (splitOnSlash p)
    let body := joinSegs segs
    if body = [] then
      if isAbs then ['/'] else if trail then ['.', '/'] else ['.']
    else
      (if isAbs then '/' :: body else body) ++ (if trail then ['/'] else [])

/-- Node `path.posix.join` restricted to two arguments, as used by
`path.join(LOCAL_UPLOAD_DIR, fileName)` in `server.js`. -/
def posixJoin (a b : JStr) : JStr :=
  if a = [] ∧ b = [] then ['.']
  else posixNormalize (if a = [] then b else if b = [] then a else a ++ '/' :: b)

/-- Invariant of the segments surviving `normSegs`: non-empty, not the
literal `.` segment, and free of `/`. -/
def goodSeg (s : JStr) : Prop := s ≠ [] ∧ s ≠ ['.'] ∧ '/' ∉ s

/-! ## Filesystem model

The disk is a partial map from paths to byte lists.  `fs.existsSync`,
`fs.unlinkSync`, `fs.copyFileSync` become lookup, deletion and
read-then-write on that map. -/

/-- The filesystem: a path either holds a file's bytes or nothing. -/
abbrev Fs := JStr → Option (List Nat)

def fsExists (fs : Fs) (p : JStr) : Bool := (fs p).isSome

def fsUnlink (fs : Fs) (p : JStr) : Fs := fun q => if q = p then none else fs q

def fsWrite (fs : Fs) (p : JStr) (b : List Nat) : Fs :=
  fun q => if q = p then some b else fs q

/-- A file path is inside the storage root when it is the root itself or a
descendant of it (`root/...`). -/
def underRoot (root p : JStr) : Bool := p == root || (root ++ ['/']).isPrefixOf p

/-! ## File Store Service (`src/backend/server.js`) -/

/-- `const LOCAL_UPLOAD_DIR = process.env.UPLOAD_DIR || './uploads'`
(the default, with `UPLOAD_DIR` unset). -/
def localUploadDir : JStr := "./uploads".data

/-- Digit-extraction loop for decimal number-to-string conversion,
structurally recursive on a fuel bound (`fuel > n` always holds on entry,
so the fuel never runs out). -/
def natDigitsAux : Nat → Nat → JStr → JStr
  | 0, _, acc => acc
  | fuel + 1, n, acc =>
    if n < 10 then Char.ofNat (48 + n) :: acc
    else natDigitsAux fuel (n / 10) (Char.ofNat (48 + n % 10) :: acc)

/-- Decimal digits of a natural number, as produced by JS number-to-string
conversion in the template literal `${Date.now()}-...`. -/
def natDigits (n : Nat) : JStr := natDigitsAux (n + 1) n []

/-- Response of the `POST /upload` handler (`server.js` lines 30-80). -/
structure UploadResp where
  status : Nat
  success : Bool
  error : Option JStr := none
  fileName : Option JStr := none
  savedAs : Option JStr := none
  size : Option Nat := none
  path : Option JStr := none
  uploadedAt : Option Nat := none
deriving DecidableEq

/-- The file part attached by multer (`req.file`): original client name,
temporary path under the multer `dest` (`/tmp/uploads/`), and size. -/
structure ReqFile where
  originalname : JStr
  tmpPath : JStr
  size : Nat
deriving DecidableEq

/-- `POST /upload` handler (`server.js` lines 30-80).  `req` is `req.file`
(none when no file part was sent), `now` is `Date.now()` at line 49,
`tIso` the `new Date()` timestamp at line 65, and `copyOk` is false when
`fs.copyFileSync` throws for a reason other than a missing source (the
catch branch at lines 68-79 then runs). -/
def handleUpload (root : JStr) (now tIso : Nat) (req : Option ReqFile)
    (copyOk : Bool) (fs : Fs) : UploadResp × Fs :=
  match req with
  | none =>
    ({ status := 400, success := false, error := some "No file provided".data }, fs)
  | some f =>
    if endsWithJs f.originalname ".csv".data = false then
      ({ status := 400, success := false, error := some "Only CSV files are allowed".data },
        fsUnlink fs f.tmpPath)
    else
      let fileName := natDigits now ++ '-' :: f.originalname
      let filePath := posixJoin root fileName
      match fs f.tmpPath, copyOk with
      | some bytes, true =>
        ({ status := 200, success := true, fileName := some f.originalname,
           savedAs := some fileName, size := some f.size, path := some filePath,
           uploadedAt := some tIso },
          fsUnlink (fsWrite fs filePath bytes) f.tmpPath)
      | _, _ =>
        ({ status := 500, success := false, error := some "Failed to upload file".data },
          if fsExists fs f.tmpPath then fsUnlink fs f.tmpPath else fs)

/-- Outcome of `GET /files/:fileName` and `GET /download/:fileName`:
HTTP status, success flag, and the list of paths on which the handler
performed a filesystem access (`existsSync`/`statSync`/`res.download`). -/
structure FileRes where
  status : Nat
  success : Bool
  probed : List JStr
deriving DecidableEq

/-- `GET /files/:fileName` handler (`server.js` lines 119-160): join the
name onto the root, reject with 403 when the joined path does not start
with the root string, 404 when it does not exist, otherwise stat it. -/
def getFileMetadata (fs : Fs) (root name : JStr) : FileRes :=
  let filePath := posixJoin root name
  if startsWithJs filePath root = false then
    { status := 403, success := false, probed := [] }
  else if fsExists fs filePath = false then
    { status := 404, success := false, probed := [filePath] }
  else
    { status := 200, success := true, probed := [filePath] }

/-- `GET /download/:fileName` handler (`server.js` lines 163-193): same
guard and existence check, then `res.download(filePath)`. -/
def downloadFile (fs : Fs) (root name : JStr) : FileRes :=
  let filePath := posixJoin root name
  if startsWithJs filePath root = false then
    { status := 403, success := false, probed := [] }
  else if fsExists fs filePath = false then
    { status := 404, success := false, probed := [filePath] }
  else
    { status := 200, success := true, probed := [filePath] }

/-- `GET /health` response (`server.js` lines 21-27). -/
structure HealthResp where
  status : Nat
  statusText : JStr
  timestamp : Nat
  service : JStr
deriving DecidableEq

def healthHandler (ts : Nat) : HealthResp :=
  { status := 200, statusText := "ok".data, timestamp := ts, service := "csv-upload".data }

/-- `GET /live` response (`server.js` lines 196-198). -/
structure LiveResp where
  status : Nat
  live : Bool
deriving DecidableEq

def liveHandler : LiveResp := { status := 200, live := true }

/-- `GET /ready` response (`server.js` lines 201-211). -/
structure ReadyResp where
  status : Nat
  ready : Bool
  storage : Option JStr
  errMsg : Option JStr
deriving DecidableEq

/-- `GET /ready` handler: `probe` is the result of
`fs.existsSync(LOCAL_UPLOAD_DIR)` (`none` when it throws, with `errm` the
exception message used in the catch branch). -/
def readyHandler (probe : Option Bool) (errm : JStr) : ReadyResp :=
  match probe with
  | some true => { status := 200, ready := true, storage := some "available".data, errMsg := none }
  | some false => { status := 503, ready := false, storage := some "unavailable".data, errMsg := none }
  | none => { status := 503, ready := false, storage := none, errMsg := some errm }

/-! ## Express routing

`server.js` registers exactly these routes: `GET /health`, `POST /upload`,
`GET /files`, `GET /files/:fileName`, `GET /download/:fileName`,
`GET /live`, `GET /ready` — followed by the error middleware and the 404
catch-all (lines 224-231).  No `DELETE` route is registered.
`express.static('public')` serves only `GET`/`HEAD` requests and is
irrelevant to the API paths considered here. -/

inductive Method where
  | get
  | post
  | delete
deriving DecidableEq

/-- An Express `:param` placeholder matches one non-empty path segment
containing no literal `/`. -/
def isOneSeg (s : JStr) : Bool := !s.isEmpty && !s.contains '/'

/-- Whether a request matches some route registered in `server.js`. -/
def routeMatches (m : Method) (p : JStr) : Bool :=
  (m == .get && p == "/health".data)
  || (m == .post && p == "/upload".data)
  || (m == .get && p == "/files".data)
  || (m == .get && "/files/".data.isPrefixOf p && isOneSeg (p.drop 7))
  || (m == .get && "/download/".data.isPrefixOf p && isOneSeg (p.drop 10))
  || (m == .get && p == "/live".data)
  || (m == .get && p == "/ready".data)

/-- Status and success flag of a JSON response. -/
structure BasicResp where
  status : Nat
  success : Bool
deriving DecidableEq

/-- What the server does with a request that matches no registered route:
the 404 catch-all (`server.js` lines 224-231) answers
`{success:false, error:'Not found', path, method}` and touches no file.
Returns `none` when some registered route matches (the request is handled
by that route instead). -/
def dispatchUnmatched (m : Method) (p : JStr) (fs : Fs) : Option (BasicResp × Fs) :=
  if routeMatches m p then none
  else some ({ status := 404, success := false }, fs)

/-! ## Upload Client (`src/unnamed/part_000`)

DOM state is flattened into a record: the pending selection
(`selectedFile`), the toast stack (most recent first), the visibility /
enabled flags the handlers toggle, and the file-info panel's displayed
name and size. -/

/-- A `File` object from a drag-drop or file-input selection. -/
structure JsFile where
  name : JStr
  size : Nat
  bytes : List Nat
deriving DecidableEq

inductive ToastKind where
  | success
  | error
  | warning
  | info
deriving DecidableEq

structure ClientState where
  selectedFile : Option JsFile
  toasts : List (JStr × ToastKind)
  fileInfoHidden : Bool
  uploadBtnDisabled : Bool
  progressHidden : Bool
  progressPct : Nat
  fileInputValue : JStr
  displayedName : Option JStr
  displayedSizeCentiKB : Option Nat
deriving DecidableEq

/-- `showToast(message, type)`: push a toast. -/
def showToast (msg : JStr) (k : ToastKind) (st : ClientState) : ClientState :=
  { st with toasts := (msg, k) :: st.toasts }

/-- The value rendered by `(file.size / 1024).toFixed(2)`, scaled by 100:
the number of hundredths of a kilobyte, rounding half away from zero.
Exact for every size the client accepts (≤ 100 MiB), since `size / 1024`
is then a dyadic rational represented exactly by the IEEE double. -/
def toFixed2KB (size : Nat) : Nat := (100 * size + 512) / 1024

/-- `displayFileInfo(file)`: render name and size, reveal the panel,
enable the upload button. -/
def displayFileInfo (f : JsFile) (st : ClientState) : ClientState :=
  { st with displayedName := some f.name,
            displayedSizeCentiKB := some (toFixed2KB f.size),
            fileInfoHidden := false,
            uploadBtnDisabled := false }

/-- `handleFileDrop(files)` (`part_000` lines 70-89): take the first file;
reject non-`.csv` names and sizes over `100 * 1024 * 1024` bytes with an
error toast; otherwise set the selection and display it. -/
def handleFileDrop (files : List JsFile) (st : ClientState) : ClientState :=
  match files with
  | [] => st
  | f :: _ =>
    if endsWithJs f.name ".csv".data = false then
      showToast "Please select a CSV file".data .error st
    else if 100 * 1024 * 1024 < f.size then
      showToast "File size must be less than 100MB".data .error st
    else
      displayFileInfo f { st with selectedFile := some f }

/-- `removeFile()` (`part_000` lines 100-105). -/
def removeFile (st : ClientState) : ClientState :=
  { st with selectedFile := none, fileInfoHidden := true,
            uploadBtnDisabled := true, fileInputValue := [] }

/-- `resetProgress()` (`part_000` lines 170-174). -/
def resetProgress (st : ClientState) : ClientState :=
  { st with progressHidden := true, progressPct := 0 }

/-- The XHR request assembled by `uploadFile()`: `formData.append('csv',
selectedFile)` then `xhr.open('POST', API_URL + '/uploads3')`. `url` is
the path part (API_URL is the page origin). -/
structure XhrReq where
  method : Method
  url : JStr
  formField : JStr
  bytes : List Nat
deriving DecidableEq

def uploadRequestOf (f : JsFile) : XhrReq :=
  { method := .post, url := "/uploads3".data, formField := "csv".data, bytes := f.bytes }

/-- `uploadFile()` up to `xhr.send` (`part_000` lines 108-118, 153-154):
toast and bail when nothing is selected, otherwise disable the button,
show the progress bar and send the request. -/
def uploadStart (st : ClientState) : ClientState × Option XhrReq :=
  match st.selectedFile with
  | none => (showToast "Please select a file".data .error st, none)
  | some f =>
    ({ st with uploadBtnDisabled := true, progressHidden := false }, some (uploadRequestOf f))

/-- How the in-flight upload request settles. -/
inductive XhrOutcome where
  | load (status : Nat)
  | errorEvt
  | thrown
deriving DecidableEq

/-- The `load`/`error` listeners and the `catch` of `uploadFile()`
(`part_000` lines 132-160).  The success branch also triggers
`loadFiles()`; that refresh has no effect on the state modelled here. -/
def uploadSettle (st : ClientState) (o : XhrOutcome) : ClientState :=
  match o with
  | .load status =>
    let st1 :=
      if status = 200 then
        removeFile (showToast "File uploaded successfully!".data .success st)
      else
        showToast "Upload failed".data .error st
    { resetProgress st1 with uploadBtnDisabled := false }
  | .errorEvt =>
    { resetProgress (showToast "Upload error. Please try again.".data .error st) with
        uploadBtnDisabled := false }
  | .thrown =>
    { resetProgress (showToast "Error uploading file".data .error st) with
        uploadBtnDisabled := false }

/-! ## Concrete filesystems used to evaluate the model on specific inputs -/

/-- An empty disk. -/
def fsEmpty : Fs := fun _ => none

/-- A disk on which `/data2/secret` exists — a file *outside* a storage
root configured as `/data`. -/
def fsOutsideDemo : Fs := fun p => if p = "/data2/secret".data then some [7] else none

/-- A disk on which the path `./` exists (the working directory always
does). -/
def fsDotDemo : Fs := fun p => if p = "./".data then some [] else none

/-- A disk holding one multer temporary artifact with content
`"a,b\n1,2\n"` (17 bytes would be `97, 44, 98, …`; the exact bytes are
irrelevant to the handler). -/
def fsTmpDemo : Fs :=
  fun p => if p = "/tmp/uploads/a1b2".data then some [97, 44, 98, 10, 49, 44, 50, 10] else none

/-- The client page as first rendered: nothing selected, upload disabled,
progress and file-info panels hidden. -/
def st0 : ClientState :=
  { selectedFile := none, toasts := [], fileInfoHidden := true,
    uploadBtnDisabled := true, progressHidden := true, progressPct := 0,
    fileInputValue := [], displayedName := none, displayedSizeCentiKB := none }

/-- A 17-byte CSV candidate file. -/
def fDemo : JsFile := { name := "sales.csv".data, size := 17, bytes := [97, 44, 98] }

/-- The client state right after `fDemo` was selected and displayed. -/
def stSel : ClientState :=
  { selectedFile := some fDemo, toasts := [], fileInfoHidden := false,
    uploadBtnDisabled := true, progressHidden := false, progressPct := 37,
    fileInputValue := [], displayedName := some fDemo.name,
    displayedSizeCentiKB := some (toFixed2KB fDemo.size) }

/-! ## Lemmas about the path embedding -/

theorem splitOnSlash_ne_nil (p : JStr) : splitOnSlash p ≠ [] := by
  induction p with
  | nil => simp [splitOnSlash]
  | cons c cs ih =>
    rw [splitOnSlash]
    split
    · simp
    · rcases h : splitOnSlash cs with _ | ⟨s, ss⟩ <;> simp [h]

theorem not_slash_of_mem_splitOnSlash (p : JStr) (s : JStr)
    (hs : s ∈ splitOnSlash p) : '/' ∉ s := by
  induction p generalizing s with
  | nil =>
    simp only [splitOnSlash, List.mem_singleton] at hs
    subst hs; simp
  | cons c cs ih =>
    rw [splitOnSlash] at hs
    by_cases hc : c = '/'
    · rw [if_pos hc] at hs
      rcases List.mem_cons.mp hs with h | h
      · subst h; simp
      · exact ih s h
    · rw [if_neg hc] at hs
      rcases h : splitOnSlash cs with _ | ⟨t, ts⟩
      · exact absurd h (splitOnSlash_ne_nil cs)
      · rw [h] at hs
        rcases List.mem_cons.mp hs with h1 | h1
        · subst h1
          intro hmem
          rcases List.mem_cons.mp hmem with h2 | h2
          · exact hc h2.symm
          · exact ih t (by rw [h]; exact List.mem_cons_self t ts) h2
        · exact ih s (by rw [h]; exact List.mem_cons.mpr (Or.inr h1))

theorem goodSeg_dotDot : goodSeg ['.', '.'] := by
  refine ⟨by simp, by simp, by decide⟩

theorem goodSeg_of_mem_dropDotDot (ab : Bool) (acc : List JStr)
    (hacc : ∀ t ∈ acc, goodSeg t) : ∀ t ∈ dropDotDot ab acc, goodSeg t := by
  intro t ht
  cases acc with
  | nil =>
    rw [dropDotDot] at ht
    cases ab with
    | true =>
      simp only [if_true, List.mem_singleton] at ht
      subst ht; exact goodSeg_dotDot
    | false => simp at ht
  | cons a as =>
    rw [dropDotDot] at ht
    by_cases h3 : a = ['.', '.']
    · rw [if_pos h3] at ht
      cases ab with
      | true =>
        simp only [if_true] at ht
        rcases List.mem_cons.mp ht with h4 | h4
        · subst h4; exact goodSeg_dotDot
        · exact hacc t h4
      | false =>
        simp only [Bool.false_eq_true, if_false] at ht
        exact hacc t ht
    · rw [if_neg h3] at ht
      exact hacc t (List.mem_cons_of_mem _ ht)

theorem goodSeg_of_mem_normSegs (ab : Bool) (segs : List JStr) :
    ∀ acc : List JStr, (∀ t ∈ acc, goodSeg t) → (∀ t ∈ segs, '/' ∉ t) →
      ∀ s ∈ normSegs ab acc segs, goodSeg s := by
  induction segs with
  | nil =>
    intro acc hacc _ s hs
    rw [normSegs] at hs
    exact hacc s (List.mem_reverse.mp hs)
  | cons seg rest ih =>
    intro acc hacc hsegs s hs
    have htail : ∀ t ∈ rest, '/' ∉ t := fun t ht => hsegs t (List.mem_cons_of_mem _ ht)
    rw [normSegs] at hs
    by_cases h1 : seg = [] ∨ seg = ['.']
    · rw [if_pos h1] at hs
      exact ih acc hacc htail s hs
    · rw [if_neg h1] at hs
      by_cases h2 : seg = ['.', '.']
      · rw [if_pos h2] at hs
        exact ih _ (goodSeg_of_mem_dropDotDot ab acc hacc) htail s hs
      · rw [if_neg h2] at hs
        refine ih (seg :: acc) ?_ htail s hs
        intro t ht
        rcases List.mem_cons.mp ht with h4 | h4
        · rw [h4]
          exact ⟨fun he => h1 (Or.inl he), fun he => h1 (Or.inr he),
            hsegs seg (List.mem_cons_self seg rest)⟩
        · exact hacc t h4

theorem joinSegs_cons (s : JStr) (ss : List JStr) :
    ∃ rest, joinSegs (s :: ss) = s ++ rest ∧ (rest = [] ∨ ∃ t, rest = '/' :: t) := by
  cases ss with
  | nil => exact ⟨[], by simp [joinSegs], Or.inl rfl⟩
  | cons t ts => exact ⟨'/' :: joinSegs (t :: ts), by rw [joinSegs], Or.inr ⟨_, rfl⟩⟩

/-- A relative path never normalizes to something that starts with the two
characters `./` — except to the exact two-character string `./` itself
(or `.`).  This is why `path.join('./uploads', name)` can never have
`'./uploads'` as a string prefix. -/
theorem posixNormalize_dotSlash_cases (p : JStr) (h0 : (p.head? == some '/') = false) :
    posixNormalize p = ['.'] ∨ posixNormalize p = ['.', '/'] ∨
      ¬ (['.', '/'] <+: posixNormalize p) := by
  by_cases hp : p = []
  · subst hp; left; rfl
  · have hgood : ∀ s ∈ normSegs true [] (splitOnSlash p), goodSeg s :=
      goodSeg_of_mem_normSegs true (splitOnSlash p) [] (by simp)
        (fun t ht => not_slash_of_mem_splitOnSlash p t ht)
    rw [posixNormalize, if_neg hp]
    simp only [h0, Bool.not_false, if_true, Bool.false_eq_true, if_false]
    by_cases hbody : joinSegs (normSegs true [] (splitOnSlash p)) = []
    · rw [if_pos hbody]
      by_cases ht : (p.getLast? == some '/') = true
      · rw [if_pos ht]; right; left; rfl
      · rw [if_neg ht]; left; rfl
    · rw [if_neg hbody]
      right; right
      intro hpre
      rcases hsegs : normSegs true [] (splitOnSlash p) with _ | ⟨s₀, ss⟩
      · rw [hsegs] at hbody; exact hbody rfl
      · have hg : goodSeg s₀ := hgood s₀ (by rw [hsegs]; exact List.mem_cons_self s₀ ss)
        obtain ⟨rest, hjoin, -⟩ := joinSegs_cons s₀ ss
        rw [hsegs, hjoin, List.append_assoc] at hpre
        rcases hs₀ : s₀ with _ | ⟨c₁, tl⟩
        · exact hg.1 hs₀
        · rw [hs₀] at hpre
          rcases htl : tl with _ | ⟨c₂, tl₂⟩
          · simp only [List.cons_append, List.nil_append] at hpre
            rw [List.cons_prefix_cons] at hpre
            exact hg.2.1 (by rw [hs₀, htl, ← hpre.1])
          · rw [htl] at hpre
            simp only [List.cons_append] at hpre
            rw [List.cons_prefix_cons, List.cons_prefix_cons] at hpre
            refine hg.2.2 ?_
            rw [hs₀, htl, ← hpre.2.1]
            exact List.mem_cons_of_mem _ (List.mem_cons_self _ _)

/-- The traversal guard of `server.js` is unsatisfiable when the storage
root is a relative path of the form `./xyz` (at least one character after
`./`): the `path.join` result never has the root as a string prefix. -/
theorem guard_false_of_dotSlash_root (root name : JStr)
    (h2 : ['.', '/'] <+: root) (h3 : 3 ≤ root.length) :
    startsWithJs (posixJoin root name) root = false := by
  have hroot_ne : ¬(root = []) := by
    intro h; rw [h] at h3; simp at h3
  obtain ⟨r2, hr⟩ : ∃ r2, root = '.' :: '/' :: r2 := by
    obtain ⟨t, ht⟩ := h2
    exact ⟨t, ht.symm⟩
  by_contra hsw
  rw [Bool.not_eq_false] at hsw
  have hpre : root <+: posixJoin root name := List.isPrefixOf_iff_prefix.mp hsw
  have hjoin : posixJoin root name
      = posixNormalize (if name = [] then root else root ++ '/' :: name) := by
    rw [posixJoin, if_neg (fun hand => hroot_ne hand.1), if_neg hroot_ne]
  have hq0 : ((if name = [] then root else root ++ '/' :: name).head? == some '/') = false := by
    by_cases hn : name = []
    · rw [if_pos hn, hr]; rfl
    · rw [if_neg hn, hr]; rfl
  rw [hjoin] at hpre
  rcases posixNormalize_dotSlash_cases _ hq0 with h | h | h
  · rw [h] at hpre
    have hl := hpre.length_le
    simp at hl; omega
  · rw [h] at hpre
    have hl := hpre.length_le
    simp at hl; omega
  · exact h (List.IsPrefix.trans (by rw [hr]; exact ⟨r2, rfl⟩) hpre)

/-! ## The claims -/

/-- C1: the spec claims `submitUpload` POSTs the candidate's bytes under
field `csv` to the service's upload endpoint, the `POST /upload` route.
The field name is right, but the client's `uploadFile` opens the request
against `/uploads3`, a path matched by no route registered in
`server.js`, so the server's 404 catch-all answers and no upload can
ever succeed.  This theorem evaluates the code at the failing input. -/
theorem c1_client_posts_to_uploads3 :
    (uploadRequestOf ⟨"sales.csv".data, 17, [97, 44, 98]⟩).formField = "csv".data ∧
    (uploadRequestOf ⟨"sales.csv".data, 17, [97, 44, 98]⟩).url = "/uploads3".data ∧
    "/uploads3".data ≠ "/upload".data ∧
    (∀ fs : Fs, dispatchUnmatched .post "/uploads3".data fs
      = some ({ status := 404, success := false }, fs)) :=
  ⟨rfl, rfl, by decide, fun _ => rfl⟩

/-- C2: the spec claims `DELETE /delete/:fileName` removes the file and
returns 200, or 404 for a missing name.  `server.js` registers no
`DELETE` route at all, so every such request reaches the 404 catch-all
(lines 224-231): the response is 404 with `success:false` for every name,
and the filesystem is left untouched (no file is ever removed). -/
theorem c2_delete_request_hits_catch_all (name : JStr) (fs : Fs) :
    dispatchUnmatched .delete ("/delete/".data ++ name) fs
      = some ({ status := 404, success := false }, fs) := rfl

/-- C3 counterexample: the claim extends to every root beginning with
`./`, but for the root that is exactly `./` the guard *passes* for the
name `./` (reachable as the URL-encoded parameter `.%2F`):
`path.join('./', './')` is `'./'`, which does start with the root, and
the handler then stats the working directory and answers 200, not 403. -/
theorem c3_root_dot_slash_counterexample :
    (['.', '/'] <+: "./".data) ∧
    startsWithJs (posixJoin "./".data "./".data) "./".data = true ∧
    getFileMetadata fsDotDemo "./".data "./".data
      = { status := 200, success := true, probed := ["./".data] } := by
  refine ⟨⟨[], by decide⟩, by decide, by decide⟩

/-- C3 (amended): when the storage root begins with `./` and is longer
than the bare `./` — which includes the default `./uploads` — the
traversal guard `path.join(root, name).startsWith(root)` is false for
every filename, because `path.join` normalizes away the leading `./`;
hence `GET /files/:fileName` and `GET /download/:fileName` answer
403 Access denied for every name, touching no file. -/
theorem c3_relative_root_always_denied (fs : Fs) (root name : JStr)
    (h2 : ['.', '/'] <+: root) (h3 : 3 ≤ root.length) :
    startsWithJs (posixJoin root name) root = false ∧
    getFileMetadata fs root name = { status := 403, success := false, probed := [] } ∧
    downloadFile fs root name = { status := 403, success := false, probed := [] } := by
  have hg := guard_false_of_dotSlash_root root name h2 h3
  refine ⟨hg, ?_, ?_⟩
  · simp only [getFileMetadata]
    rw [if_pos hg]
  · simp only [downloadFile]
    rw [if_pos hg]

/-- Witness for C3: at the default root `./uploads` even the traversal
name `../../etc/passwd` (and every other name) is answered with 403. -/
theorem c3_relative_root_always_denied_witness :
    (['.', '/'] <+: localUploadDir) ∧ 3 ≤ localUploadDir.length ∧
    (startsWithJs (posixJoin localUploadDir "../../etc/passwd".data) localUploadDir = false ∧
     getFileMetadata fsEmpty localUploadDir "../../etc/passwd".data
       = { status := 403, success := false, probed := [] } ∧
     downloadFile fsEmpty localUploadDir "../../etc/passwd".data
       = { status := 403, success := false, probed := [] }) :=
  ⟨⟨"uploads".data, by decide⟩, by decide,
    c3_relative_root_always_denied fsEmpty localUploadDir "../../etc/passwd".data
      ⟨"uploads".data, by decide⟩ (by decide)⟩

/-- C4: the spec claims every resolution escaping the storage root fails
with 403 and the handlers never read outside the root.  The code's
string-prefix guard does not enforce this: with the root configured as
`/data`, the name `../data2/secret` resolves to `/data2/secret` — outside
the root — yet passes `startsWith('/data')`, and both handlers proceed to
access that outside path and answer 200.  This theorem evaluates the code
at the failing input. -/
theorem c4_guard_bypass_outside_root :
    posixJoin "/data".data "../data2/secret".data = "/data2/secret".data ∧
    startsWithJs "/data2/secret".data "/data".data = true ∧
    underRoot "/data".data "/data2/secret".data = false ∧
    getFileMetadata fsOutsideDemo "/data".data "../data2/secret".data
      = { status := 200, success := true, probed := ["/data2/secret".data] } ∧
    downloadFile fsOutsideDemo "/data".data "../data2/secret".data
      = { status := 200, success := true, probed := ["/data2/secret".data] } := by
  refine ⟨by decide, by decide, by decide, by decide, by decide⟩

/-! ## Lemmas about decimal digit strings -/

theorem isDigit_ofNat_digit (d : Nat) (hd : d < 10) : (Char.ofNat (48 + d)).isDigit = true := by
  interval_cases d <;> decide

theorem natDigitsAux_ne_nil :
    ∀ (fuel n : Nat) (acc : JStr), n < fuel → natDigitsAux fuel n acc ≠ [] := by
  intro fuel
  induction fuel with
  | zero => intro n acc h; omega
  | succ fuel ih =>
    intro n acc h
    rw [natDigitsAux]
    by_cases h10 : n < 10
    · rw [if_pos h10]; simp
    · rw [if_neg h10]
      have hlt : n / 10 < n := Nat.div_lt_self (by omega) (by omega)
      exact ih (n / 10) _ (by omega)

theorem natDigitsAux_all_digits :
    ∀ (fuel n : Nat) (acc : JStr), (∀ c ∈ acc, c.isDigit = true) →
      ∀ c ∈ natDigitsAux fuel n acc, c.isDigit = true := by
  intro fuel
  induction fuel with
  | zero => intro n acc hacc c hc; exact hacc c hc
  | succ fuel ih =>
    intro n acc hacc c hc
    rw [natDigitsAux] at hc
    by_cases h10 : n < 10
    · rw [if_pos h10] at hc
      rcases List.mem_cons.mp hc with h | h
      · rw [h]; exact isDigit_ofNat_digit n h10
      · exact hacc c h
    · rw [if_neg h10] at hc
      refine ih (n / 10) _ ?_ c hc
      intro d hd
      rcases List.mem_cons.mp hd with h | h
      · rw [h]; exact isDigit_ofNat_digit (n % 10) (Nat.mod_lt _ (by omega))
      · exact hacc d h

theorem natDigits_ne_nil (n : Nat) : natDigits n ≠ [] :=
  natDigitsAux_ne_nil (n + 1) n [] (by omega)

theorem natDigits_all_digits (n : Nat) : ∀ c ∈ natDigits n, c.isDigit = true :=
  natDigitsAux_all_digits (n + 1) n [] (by simp)

/-- C5: `handleUpload` answers 400 when no file part is present, and for
an uploaded file whose original name does not end in `.csv` it unlinks
the multer temporary artifact and answers 400, adding no file anywhere —
in particular none in the storage directory. -/
theorem c5_upload_rejections (root : JStr) (now tIso : Nat) (copyOk : Bool) (fs : Fs) :
    handleUpload root now tIso none copyOk fs
      = ({ status := 400, success := false, error := some "No file provided".data }, fs) ∧
    ∀ f : ReqFile, endsWithJs f.originalname ".csv".data = false →
      (handleUpload root now tIso (some f) copyOk fs
        = ({ status := 400, success := false,
             error := some "Only CSV files are allowed".data }, fsUnlink fs f.tmpPath) ∧
       ∀ p : JStr, fsExists (handleUpload root now tIso (some f) copyOk fs).2 p = true →
         fsExists fs p = true) := by
  refine ⟨rfl, ?_⟩
  intro f hf
  constructor
  · simp only [handleUpload]
    rw [if_pos hf]
  · intro p hp
    simp only [handleUpload] at hp
    rw [if_pos hf] at hp
    simp only [fsExists, fsUnlink] at hp ⊢
    by_cases hq : p = f.tmpPath
    · rw [if_pos hq] at hp; simp at hp
    · rw [if_neg hq] at hp; exact hp

/-- Witness for C5: uploading `data.txt` yields 400 with the invalid-type
error, the temporary artifact is unlinked, and no new file appears. -/
theorem c5_upload_rejections_witness :
    endsWithJs "data.txt".data ".csv".data = false ∧
    (handleUpload localUploadDir 1700000000000 1700000000001
        (some { originalname := "data.txt".data, tmpPath := "/tmp/uploads/a1b2".data, size := 8 })
        true fsTmpDemo
      = ({ status := 400, success := false,
           error := some "Only CSV files are allowed".data },
         fsUnlink fsTmpDemo "/tmp/uploads/a1b2".data) ∧
     ∀ p : JStr,
       fsExists (handleUpload localUploadDir 1700000000000 1700000000001
          (some { originalname := "data.txt".data, tmpPath := "/tmp/uploads/a1b2".data, size := 8 })
          true fsTmpDemo).2 p = true →
         fsExists fsTmpDemo p = true) :=
  ⟨by decide,
    (c5_upload_rejections localUploadDir 1700000000000 1700000000001 true fsTmpDemo).2
      { originalname := "data.txt".data, tmpPath := "/tmp/uploads/a1b2".data, size := 8 }
      (by decide)⟩

/-- C6: for an upload whose name ends in `.csv`, `handleUpload` answers
200 with the original name, a stored name `{Date.now()}-{originalname}`
(a non-empty digit string, then a dash, then the original name), the
size, the storage path and a timestamp, and the bytes are persisted at
the joined storage path. -/
theorem c6_upload_success (root : JStr) (now tIso : Nat) (f : ReqFile)
    (bytes : List Nat) (fs : Fs)
    (hcsv : endsWithJs f.originalname ".csv".data = true)
    (htmp : fs f.tmpPath = some bytes)
    (hsep : posixJoin root (natDigits now ++ '-' :: f.originalname) ≠ f.tmpPath) :
    (handleUpload root now tIso (some f) true fs).1
      = { status := 200, success := true, error := none,
          fileName := some f.originalname,
          savedAs := some (natDigits now ++ '-' :: f.originalname),
          size := some f.size,
          path := some (posixJoin root (natDigits now ++ '-' :: f.originalname)),
          uploadedAt := some tIso } ∧
    (handleUpload root now tIso (some f) true fs).2
        (posixJoin root (natDigits now ++ '-' :: f.originalname)) = some bytes ∧
    natDigits now ≠ [] ∧ (∀ c ∈ natDigits now, c.isDigit = true) := by
  have hne : ¬ (endsWithJs f.originalname ".csv".data = false) := by rw [hcsv]; simp
  refine ⟨?_, ?_, natDigits_ne_nil now, natDigits_all_digits now⟩
  · simp only [handleUpload]
    rw [if_neg hne, htmp]
  · simp only [handleUpload]
    rw [if_neg hne, htmp]
    simp only [fsUnlink, fsWrite]
    rw [if_neg hsep]
    simp

/-- Witness for C6 at a concrete upload of `sales.csv`. -/
theorem c6_upload_success_witness :
    endsWithJs "sales.csv".data ".csv".data = true ∧
    fsTmpDemo "/tmp/uploads/a1b2".data = some [97, 44, 98, 10, 49, 44, 50, 10] ∧
    ((handleUpload localUploadDir 5 6
        (some { originalname := "sales.csv".data, tmpPath := "/tmp/uploads/a1b2".data, size := 8 })
        true fsTmpDemo).1
      = { status := 200, success := true, error := none,
          fileName := some "sales.csv".data,
          savedAs := some (natDigits 5 ++ '-' :: "sales.csv".data),
          size := some 8,
          path := some (posixJoin localUploadDir (natDigits 5 ++ '-' :: "sales.csv".data)),
          uploadedAt := some 6 } ∧
     (handleUpload localUploadDir 5 6
        (some { originalname := "sales.csv".data, tmpPath := "/tmp/uploads/a1b2".data, size := 8 })
        true fsTmpDemo).2
          (posixJoin localUploadDir (natDigits 5 ++ '-' :: "sales.csv".data))
        = some [97, 44, 98, 10, 49, 44, 50, 10] ∧
     natDigits 5 ≠ [] ∧ (∀ c ∈ natDigits 5, c.isDigit = true)) :=
  ⟨by decide, by decide,
    c6_upload_success localUploadDir 5 6
      { originalname := "sales.csv".data, tmpPath := "/tmp/uploads/a1b2".data, size := 8 }
      [97, 44, 98, 10, 49, 44, 50, 10] fsTmpDemo (by decide) (by decide) (by decide)⟩

/-- C10: for every request carrying a file part, the multer temporary
artifact is gone from disk once `handleUpload` returns, whatever the
outcome: unlinked on the invalid-type branch, copied then unlinked on
success, and unlinked by the catch branch (when still present) on an I/O
failure. -/
theorem c10_temp_artifact_removed (root : JStr) (now tIso : Nat) (f : ReqFile)
    (copyOk : Bool) (fs : Fs) :
    fsExists (handleUpload root now tIso (some f) copyOk fs).2 f.tmpPath = false := by
  simp only [handleUpload]
  by_cases h1 : endsWithJs f.originalname ".csv".data = false
  · rw [if_pos h1]
    simp [fsExists, fsUnlink]
  · rw [if_neg h1]
    rcases h2 : fs f.tmpPath with _ | bytes <;>
      cases copyOk <;> simp [fsExists, fsUnlink, h2]

/-- C7: `handleFileDrop` returns unchanged on an empty selection list;
rejects names not ending in `.csv` and sizes over 104,857,600 bytes with
an error toast and without touching the pending selection; and on an
accepted file stores it as the selection, enables upload, and displays
its size in hundredths of a kilobyte — a value within half a hundredth
of `size / 1024` (two-decimal precision). -/
theorem c7_select_file (st : ClientState) (f : JsFile) (rest : List JsFile) :
    handleFileDrop [] st = st ∧
    (endsWithJs f.name ".csv".data = false →
      handleFileDrop (f :: rest) st
        = showToast "Please select a CSV file".data .error st ∧
      (handleFileDrop (f :: rest) st).selectedFile = st.selectedFile) ∧
    (endsWithJs f.name ".csv".data = true → 104857600 < f.size →
      handleFileDrop (f :: rest) st
        = showToast "File size must be less than 100MB".data .error st ∧
      (handleFileDrop (f :: rest) st).selectedFile = st.selectedFile) ∧
    (endsWithJs f.name ".csv".data = true → f.size ≤ 104857600 →
      (handleFileDrop (f :: rest) st).selectedFile = some f ∧
      (handleFileDrop (f :: rest) st).displayedSizeCentiKB = some (toFixed2KB f.size) ∧
      (handleFileDrop (f :: rest) st).uploadBtnDisabled = false) ∧
    2 * ((toFixed2KB f.size : ℤ) * 1024 - 100 * (f.size : ℤ)).natAbs ≤ 1024 := by
  refine ⟨rfl, ?_, ?_, ?_, ?_⟩
  · intro hf
    constructor <;> simp [handleFileDrop, hf, showToast]
  · intro hf hsize
    have hlt : 100 * 1024 * 1024 < f.size := hsize
    constructor <;> simp [handleFileDrop, hf, hlt, showToast]
  · intro hf hsize
    have hle : ¬ (100 * 1024 * 1024 < f.size) := by omega
    refine ⟨?_, ?_, ?_⟩ <;>
      simp [handleFileDrop, hf, hle, displayFileInfo]
  · have hd := Nat.div_add_mod (100 * f.size + 512) 1024
    have hm : (100 * f.size + 512) % 1024 < 1024 := Nat.mod_lt _ (by norm_num)
    simp only [toFixed2KB]
    omega

/-- Witness for C7: selecting the 17-byte `sales.csv` on the freshly
rendered page pends it and shows `0.02 KB`. -/
theorem c7_select_file_witness :
    endsWithJs "sales.csv".data ".csv".data = true ∧ 17 ≤ 104857600 ∧
    ((handleFileDrop [fDemo] st0).selectedFile = some fDemo ∧
     (handleFileDrop [fDemo] st0).displayedSizeCentiKB = some (toFixed2KB 17) ∧
     (handleFileDrop [fDemo] st0).uploadBtnDisabled = false) :=
  ⟨by decide, by decide, (c7_select_file st0 fDemo []).2.2.2.1 (by decide) (by decide)⟩

/-- C8: once the upload request settles, whatever the outcome, the
progress indicator is hidden and reset to 0 % and the submit button is
re-enabled; on every failure outcome (non-200 status, network error
event, or thrown exception) the pending selection is kept for retry and
an error toast is shown. -/
theorem c8_upload_outcome (st : ClientState) (f : JsFile) (o : XhrOutcome)
    (hsel : st.selectedFile = some f) :
    ((uploadSettle st o).progressHidden = true ∧
     (uploadSettle st o).progressPct = 0 ∧
     (uploadSettle st o).uploadBtnDisabled = false) ∧
    (∀ s : Nat, o = .load s → s ≠ 200 →
      (uploadSettle st o).selectedFile = some f ∧
      (uploadSettle st o).toasts.head? = some ("Upload failed".data, .error)) ∧
    (o = .errorEvt →
      (uploadSettle st o).selectedFile = some f ∧
      (uploadSettle st o).toasts.head?
        = some ("Upload error. Please try again.".data, .error)) ∧
    (o = .thrown →
      (uploadSettle st o).selectedFile = some f ∧
      (uploadSettle st o).toasts.head? = some ("Error uploading file".data, .error)) := by
  cases o with
  | load s =>
    by_cases hs : s = 200
    · subst hs
      refine ⟨by simp [uploadSettle, resetProgress, removeFile, showToast], ?_, by simp, by simp⟩
      intro s' hload hneq
      injection hload with h
      exact absurd h.symm hneq
    · refine ⟨?_, ?_, by simp, by simp⟩
      · simp [uploadSettle, hs, resetProgress, showToast]
      · intro s' hload hneq
        injection hload with h
        subst h
        simp [uploadSettle, hs, resetProgress, showToast, hsel]
  | errorEvt =>
    refine ⟨by simp [uploadSettle, resetProgress, showToast], by simp, ?_, by simp⟩
    intro _
    simp [uploadSettle, resetProgress, showToast, hsel]
  | thrown =>
    refine ⟨by simp [uploadSettle, resetProgress, showToast], by simp, by simp, ?_⟩
    intro _
    simp [uploadSettle, resetProgress, showToast, hsel]

/-- Witness for C8: a 404 answer (e.g. from the `/uploads3` mismatch of
C1) keeps the selection, toasts an error, resets the progress bar and
re-enables the button. -/
theorem c8_upload_outcome_witness :
    stSel.selectedFile = some fDemo ∧
    ((uploadSettle stSel (.load 404)).progressHidden = true ∧
     (uploadSettle stSel (.load 404)).progressPct = 0 ∧
     (uploadSettle stSel (.load 404)).uploadBtnDisabled = false) ∧
    ((uploadSettle stSel (.load 404)).selectedFile = some fDemo ∧
     (uploadSettle stSel (.load 404)).toasts.head?
       = some ("Upload failed".data, .error)) :=
  ⟨rfl, (c8_upload_outcome stSel fDemo (.load 404) rfl).1,
    (c8_upload_outcome stSel fDemo (.load 404) rfl).2.1 404 rfl (by decide)⟩

/-- C9: `GET /health` always answers 200 with status text, timestamp and
service name; `GET /live` always answers 200 with `live:true`;
`GET /ready` answers 200 with `ready:true` and the storage marker when
the storage root is accessible, and 503 with `ready:false` otherwise
(missing root, or a thrown probe). -/
theorem c9_health_live_ready (ts : Nat) (errm : JStr) :
    healthHandler ts
      = { status := 200, statusText := "ok".data, timestamp := ts,
          service := "csv-upload".data } ∧
    liveHandler = { status := 200, live := true } ∧
    readyHandler (some true) errm
      = { status := 200, ready := true, storage := some "available".data, errMsg := none } ∧
    readyHandler (some false) errm
      = { status := 503, ready := false, storage := some "unavailable".data, errMsg := none } ∧
    readyHandler none errm
      = { status := 503, ready := false, storage := none, errMsg := some errm } :=
  ⟨rfl, rfl, rfl, rfl, rfl⟩

end CsvUpload
